import Mathlib

/-!
Verification of the layout and animation arithmetic of the motion-design
repository (files neural_network.py and autonomous_agent.py).

The scenes are declarative Manim animations; the only computational content
is layout arithmetic (column layout of network layers, circular layout of the
loop diagram), the toy gradient-descent recurrence, the connection-line
construction, and the color-index clamp.  Those parts are embedded below
over exact rational (and, for the trigonometric layout, real) arithmetic.

The file is organised as definitions first, then the theorems.
-/

/-! ## Definitions: gradient descent toy loop (GradientDescentVisualization)

The Python loop is:
  learning_rate = 0.3
  for step in range(8):
      current_x = x_tracker.get_value()
      gradient = 2 * current_x
      new_x = current_x - learning_rate * gradient
      x_tracker set to new_x
      if abs(new_x) < 0.1: break
with the tracker starting at 2.  We embed it over exact rationals. -/

/-- The learning rate 0.3 of the gradient-descent demo. -/
def learning_rate : ℚ := 3 / 10

/-- One update of the loop body: new_x = current_x - learning_rate * (2 * current_x),
where 2 * current_x is the derivative of the loss x^2 + 1. -/
def gdStep (x : ℚ) : ℚ := x - learning_rate * (2 * x)

/-- The iterates of the recurrence, started at x_tracker = 2. -/
def gdSeq : Nat → ℚ
  | 0 => 2
  | n + 1 => gdStep (gdSeq n)

/-- The loop with its early exit: given remaining fuel (the range(8) bound),
the current tracker value and the number of updates already performed, it
returns the total number of updates performed when the loop stops. -/
def gdLoop : Nat → ℚ → Nat → Nat
  | 0, _, k => k
  | fuel + 1, x, k =>
    let nx := gdStep x
    if |nx| < 1 / 10 then k + 1 else gdLoop fuel nx (k + 1)

/-- The number of updates the scene actually performs: fuel 8, start 2. -/
def gdUpdates : Nat := gdLoop 8 2 0

/-- Modelled from the spec: the closed form x_n = 2 * 0.4 ^ n claimed as the
analytic solution of the recurrence. -/
def gdClosedForm (n : Nat) : ℚ := 2 * (2 / 5) ^ n

/-! ## Definitions: network column layout (NeuralNetworkScene.create_network)

The Python code fixes layer_sizes = [4, 6, 6, 3], layer_spacing = 2.5 and a
row gap of 0.8.  The horizontal offset is -((len(layer_sizes) - 1) *
layer_spacing) / 2, layer k sits at x_offset + k * layer_spacing, and inside
a layer of size s the neuron i sits at y_offset - i * 0.8 with
y_offset = (s - 1) * 0.8 / 2. -/

/-- The hardcoded layer sizes of the scene: input, hidden1, hidden2, output. -/
def layer_sizes : List Nat := [4, 6, 6, 3]

/-- The horizontal pitch between adjacent layers (2.5). -/
def layer_spacing : ℚ := 5 / 2

/-- The vertical gap between adjacent neurons of one layer (0.8). -/
def rowGap : ℚ := 4 / 5

/-- The y coordinate of the top neuron of a layer of size s:
y_offset = total_height / 2 = (s - 1) * 0.8 / 2. -/
def yTop (s : Nat) : ℚ := ((s : ℚ) - 1) * rowGap / 2

/-- The y coordinates of the neurons of one layer of size s, as computed by
the inner loop of create_network: y = y_offset - neuron_idx * 0.8. -/
def layerYs (s : Nat) : List ℚ :=
  (List.range s).map (fun (i : Nat) => yTop s - (i : ℚ) * rowGap)

/-- The x offset of the whole group: -total_width / 2 with
total_width = (number of layers - 1) * layer_spacing. -/
def xOffset (numLayers : Nat) : ℚ := -(((numLayers : ℚ) - 1) * layer_spacing) / 2

/-- The x coordinates of the layer columns: x = x_offset + layer_idx * layer_spacing. -/
def layerXs (numLayers : Nat) : List ℚ :=
  (List.range numLayers).map (fun (k : Nat) => xOffset numLayers + (k : ℚ) * layer_spacing)

/-- All neuron positions of create_network, one inner list per layer, each
position the pair (x_offset + layer_idx * layer_spacing, y_offset - neuron_idx * 0.8). -/
def networkPositions (sizes : List Nat) : List (List (ℚ × ℚ)) :=
  sizes.enum.map (fun p =>
    (layerYs p.2).map (fun y => (xOffset sizes.length + (p.1 : ℚ) * layer_spacing, y)))

/-- The all-pairs product used by create_connections: one line per pair of a
neuron of the current layer and a neuron of the next layer. -/
def allPairs (xs ys : List (ℚ × ℚ)) : List ((ℚ × ℚ) × (ℚ × ℚ)) :=
  xs.flatMap (fun p1 => ys.map (fun p2 => (p1, p2)))

/-- create_connections: for every adjacent pair of layers, one connection per
pair of neurons, in loop order. -/
def create_connections : List (List (ℚ × ℚ)) → List ((ℚ × ℚ) × (ℚ × ℚ))
  | a :: b :: rest => allPairs a b ++ create_connections (b :: rest)
  | _ => []

/-- Sum of products of adjacent entries of a list of layer sizes. -/
def adjacentProducts : List Nat → Nat
  | a :: b :: rest => a * b + adjacentProducts (b :: rest)
  | _ => 0

/-- The per-layer vertical layout for an arbitrary integer size, exactly as
the Python inner loop computes it: range(size) yields no indices when
size <= 0, so the layer is then empty; no validation is performed and no
error can be raised. -/
def layerYsInt (size : Int) : List ℚ :=
  (List.range size.toNat).map
    (fun (i : Nat) => ((size : ℚ) - 1) * rowGap / 2 - (i : ℚ) * rowGap)

/-- Modelled from the spec: the validating layout calculator the spec asks a
reimplementation to provide, failing with InvalidLayoutError for n <= 0.
No such validation or error type exists anywhere in the repository code. -/
def validatedLayerYs (size : Int) : Except String (List ℚ) :=
  if size ≤ 0 then Except.error "InvalidLayoutError" else Except.ok (layerYsInt size)

/-! ## Definitions: layer colors (NeuralNetworkScene.get_layer_color)

The Python code is: colors = [BLUE, GREEN, GREEN, ORANGE];
return colors[min(layer_idx, len(colors) - 1)]. -/

/-- The colors used by the network scene. -/
inductive LayerColor where
  | blue
  | green
  | orange
deriving DecidableEq

/-- The color table of get_layer_color. -/
def layer_colors : List LayerColor :=
  [LayerColor.blue, LayerColor.green, LayerColor.green, LayerColor.orange]

/-- get_layer_color: index the color table at min(layer_idx, len(colors) - 1);
the clamp keeps the index in range, so the access needs no further bound. -/
def get_layer_color (layer_idx : Nat) : LayerColor :=
  layer_colors.get ⟨min layer_idx (layer_colors.length - 1), by
    have hl : layer_colors.length = 4 := rfl
    have hm := Nat.min_le_right layer_idx (layer_colors.length - 1)
    omega⟩

/-! ## Definitions: circular loop layout (CompoundLoopScene.construct)

The Python code places each node at
center + radius * np.array([cos(angle * DEGREES), sin(angle * DEGREES), 0])
with center = ORIGIN, radius = 2.2 and the five explicit angles
90, 18, -54, -126, -198. -/

/-- Manim DEGREES: the radians-per-degree factor pi / 180. -/
noncomputable def DEGREES : ℝ := Real.pi / 180

/-- The radius of the circular loop layout. -/
noncomputable def loopRadius : ℝ := 2.2

/-- The center of the loop: ORIGIN. -/
def loopCenter : ℝ × ℝ × ℝ := (0, 0, 0)

/-- The position of a loop node with the given angle in degrees:
center + radius * (cos rad, sin rad, 0). -/
noncomputable def nodePos (angle : ℝ) : ℝ × ℝ × ℝ :=
  (loopCenter.1 + loopRadius * Real.cos (angle * DEGREES),
   loopCenter.2.1 + loopRadius * Real.sin (angle * DEGREES),
   loopCenter.2.2 + loopRadius * 0)

/-- Euclidean distance in the 3-D coordinate space Manim uses. -/
noncomputable def dist3 (p q : ℝ × ℝ × ℝ) : ℝ :=
  Real.sqrt ((p.1 - q.1) ^ 2 + (p.2.1 - q.2.1) ^ 2 + (p.2.2 - q.2.2) ^ 2)

/-! ## Definitions: loop arrows (CompoundLoopScene.construct)

The Python code builds, for i in range(len(nodes)), an arrow from nodes[i]
to nodes[(i + 1) % len(nodes)], with len(nodes) = 5.  We record each arrow
as the pair of its start and end node indices. -/

/-- The arrows of the compound loop, as start-end index pairs. -/
def loop_arrows : List (Nat × Nat) :=
  (List.range 5).map (fun i => (i, (i + 1) % 5))

/-! ## Theorems -/

/-- Claim C1: started at 2 with rate 0.3, the recurrence produces
x1 = 0.8, x2 = 0.32, x3 = 0.128, the early exit is not taken at x3
(0.128 is not below 0.1) but is taken at x4 = 0.0512 < 0.1, and the loop
therefore stops after exactly 4 updates. -/
theorem gd_iterates_and_stops_after_four :
    gdSeq 1 = 4 / 5 ∧ gdSeq 2 = 8 / 25 ∧ gdSeq 3 = 16 / 125 ∧
    ¬ |gdSeq 3| < 1 / 10 ∧ |gdSeq 4| < 1 / 10 ∧ gdUpdates = 4 := by
  refine ⟨?_, ?_, ?_, ?_, ?_, ?_⟩ <;>
    norm_num [gdSeq, gdStep, learning_rate, gdUpdates, gdLoop, abs_lt]

/-- Claim C2: for every n, the n-th iterate of the embedded recurrence equals
the closed form 2 * 0.4 ^ n stated by the spec. -/
theorem gdSeq_eq_closed_form (n : Nat) : gdSeq n = gdClosedForm n := by
  induction n with
  | zero => norm_num [gdSeq, gdClosedForm]
  | succ m ih =>
    show gdStep (gdSeq m) = gdClosedForm (m + 1)
    rw [ih]
    unfold gdStep gdClosedForm learning_rate
    rw [pow_succ]
    ring

theorem length_allPairs (xs ys : List (ℚ × ℚ)) :
    (allPairs xs ys).length = xs.length * ys.length := by
  induction xs with
  | nil => simp [allPairs]
  | cons x t ih =>
    have ht : (allPairs t ys).length = t.length * ys.length := ih
    simp only [allPairs, List.flatMap_cons, List.length_append, List.length_map,
      List.length_cons] at *
    rw [ht]
    ring

theorem connections_length (ps : List (List (ℚ × ℚ))) :
    (create_connections ps).length = adjacentProducts (ps.map List.length) := by
  induction ps with
  | nil => rfl
  | cons a tl ih =>
    cases tl with
    | nil => rfl
    | cons b rest =>
      simp only [create_connections, List.length_append, length_allPairs,
        List.map_cons, adjacentProducts, ih]

/-- Claim C3: the 4-6-6-3 configuration yields exactly 78 connection lines,
and in general the number of connections equals the sum of products of
adjacent layer sizes, a deterministic function of the configuration. -/
theorem connections_count :
    (create_connections (networkPositions layer_sizes)).length = 4 * 6 + 6 * 6 + 6 * 3 ∧
    ∀ ps : List (List (ℚ × ℚ)),
      (create_connections ps).length = adjacentProducts (ps.map List.length) := by
  refine ⟨?_, connections_length⟩
  rw [connections_length]
  have hlen : (networkPositions layer_sizes).map List.length = [4, 6, 6, 3] := by
    rfl
  rw [hlen]
  decide

theorem sum_map_affine (c d : ℚ) (n : Nat) :
    ((List.range n).map (fun (i : Nat) => c + (i : ℚ) * d)).sum =
      n * c + d * ((n : ℚ) * ((n : ℚ) - 1) / 2) := by
  induction n with
  | zero => simp
  | succ m ih =>
    rw [List.range_succ, List.map_append, List.sum_append, ih]
    simp only [List.map_cons, List.map_nil, List.sum_cons, List.sum_nil]
    push_cast
    ring

theorem layerYs_sum (s : Nat) : (layerYs s).sum = 0 := by
  have e : layerYs s = (List.range s).map (fun (i : Nat) => yTop s + (i : ℚ) * (-rowGap)) := by
    unfold layerYs
    congr 1
    funext i
    ring
  rw [e, sum_map_affine]
  unfold yTop
  ring

theorem layerYs_maximum (s : Nat) (hs : 1 ≤ s) :
    (layerYs s).maximum = (yTop s : WithBot ℚ) := by
  rw [List.maximum_eq_coe_iff]
  constructor
  · unfold layerYs
    refine List.mem_map.mpr ⟨0, List.mem_range.mpr hs, ?_⟩
    push_cast
    ring
  · intro a ha
    unfold layerYs at ha
    obtain ⟨i, _, rfl⟩ := List.mem_map.mp ha
    have h1 : (0 : ℚ) ≤ (i : ℚ) * rowGap := by
      have hi : (0 : ℚ) ≤ (i : ℚ) := by positivity
      have hg : (0 : ℚ) ≤ rowGap := by norm_num [rowGap]
      exact mul_nonneg hi hg
    linarith

theorem layerYs_minimum (s : Nat) (hs : 1 ≤ s) :
    (layerYs s).minimum = ((-yTop s : ℚ) : WithBot ℚ) := by
  refine List.minimum_eq_coe_iff.mpr ⟨?_, ?_⟩
  · unfold layerYs
    refine List.mem_map.mpr ⟨s - 1, List.mem_range.mpr (by omega), ?_⟩
    rw [Nat.cast_sub hs, Nat.cast_one]
    unfold yTop
    ring
  · intro a ha
    unfold layerYs at ha
    obtain ⟨i, hi, rfl⟩ := List.mem_map.mp ha
    rw [List.mem_range] at hi
    have hi' : (i : ℚ) ≤ (s : ℚ) - 1 := by
      have h1 : (i : ℚ) + 1 ≤ (s : ℚ) := by exact_mod_cast hi
      linarith
    have hg : (0 : ℚ) ≤ rowGap := by norm_num [rowGap]
    have h2 : (i : ℚ) * rowGap ≤ ((s : ℚ) - 1) * rowGap :=
      mul_le_mul_of_nonneg_right hi' hg
    unfold yTop
    linarith

/-- Claim C5: for a layer of size s at least 1, the topmost neuron sits at
(s - 1) * 0.8 / 2, the bottommost at its negative, so the vertical span is
(s - 1) * 0.8 and the positions are symmetric about the axis with sum
(hence mean) zero. -/
theorem layer_span_and_symmetry (s : Nat) (hs : 1 ≤ s) :
    (layerYs s).maximum = (yTop s : WithBot ℚ) ∧
    (layerYs s).minimum = ((-yTop s : ℚ) : WithBot ℚ) ∧
    yTop s - (-yTop s) = ((s : ℚ) - 1) * rowGap ∧
    (layerYs s).sum = 0 :=
  ⟨layerYs_maximum s hs, layerYs_minimum s hs, by unfold yTop; ring, layerYs_sum s⟩

/-- Witness for C5 at the concrete layer size 6 of the scene. -/
theorem layer_span_and_symmetry_witness :
    (layerYs 6).maximum = (yTop 6 : WithBot ℚ) ∧
    (layerYs 6).minimum = ((-yTop 6 : ℚ) : WithBot ℚ) ∧
    yTop 6 - (-yTop 6) = (((6 : Nat) : ℚ) - 1) * rowGap ∧
    (layerYs 6).sum = 0 :=
  layer_span_and_symmetry 6 (by norm_num)

theorem layerXs_getD (numLayers k : Nat) (hk : k < numLayers) :
    (layerXs numLayers).getD k 0 = xOffset numLayers + (k : ℚ) * layer_spacing := by
  unfold layerXs
  rw [List.getD_eq_getElem?_getD, List.getElem?_map, List.getElem?_range hk]
  rfl

/-- Claim C6: with at least one layer, adjacent layer columns are exactly
layer_spacing = 2.5 apart, and the x coordinates of the columns sum (hence
average) to zero, so the group is horizontally centered. -/
theorem layer_columns_centered (numLayers k : Nat) (h : 1 ≤ numLayers) :
    (k + 1 < numLayers →
      (layerXs numLayers).getD (k + 1) 0 - (layerXs numLayers).getD k 0 = layer_spacing) ∧
    (layerXs numLayers).sum = 0 := by
  constructor
  · intro hk
    rw [layerXs_getD numLayers (k + 1) hk, layerXs_getD numLayers k (by omega)]
    push_cast
    ring
  · have e : layerXs numLayers =
        (List.range numLayers).map
          (fun (kk : Nat) => xOffset numLayers + (kk : ℚ) * layer_spacing) := rfl
    rw [e, sum_map_affine]
    unfold xOffset
    ring

/-- Witness for C6 at the concrete configuration: 4 layers, columns 1 and 2. -/
theorem layer_columns_centered_witness :
    (layerXs 4).getD (1 + 1) 0 - (layerXs 4).getD 1 0 = layer_spacing ∧
    (layerXs 4).sum = 0 :=
  ⟨(layer_columns_centered 4 1 (by norm_num)).1 (by norm_num),
   (layer_columns_centered 4 1 (by norm_num)).2⟩

/-- Claim C4: every node of the circular layout, at any angle, lies at
Euclidean distance exactly loopRadius = 2.2 from the center. -/
theorem node_distance_from_center (angle : ℝ) :
    dist3 (nodePos angle) loopCenter = loopRadius := by
  have hr : (0 : ℝ) ≤ loopRadius := by norm_num [loopRadius]
  show Real.sqrt
      ((loopCenter.1 + loopRadius * Real.cos (angle * DEGREES) - loopCenter.1) ^ 2 +
       (loopCenter.2.1 + loopRadius * Real.sin (angle * DEGREES) - loopCenter.2.1) ^ 2 +
       (loopCenter.2.2 + loopRadius * 0 - loopCenter.2.2) ^ 2) = loopRadius
  have key : (loopCenter.1 + loopRadius * Real.cos (angle * DEGREES) - loopCenter.1) ^ 2 +
      (loopCenter.2.1 + loopRadius * Real.sin (angle * DEGREES) - loopCenter.2.1) ^ 2 +
      (loopCenter.2.2 + loopRadius * 0 - loopCenter.2.2) ^ 2 = loopRadius ^ 2 := by
    have hpy := Real.sin_sq_add_cos_sq (angle * DEGREES)
    linear_combination loopRadius ^ 2 * hpy
  rw [key, Real.sqrt_sq hr]

/-- Counterexample for C7: the code validates nothing.  At size 0 (and at the
negative size -3) the per-layer layout returns normally with an empty list of
coordinates, while the spec-modelled validating calculator is the one that
fails with InvalidLayoutError; so the claim that the repository layout
computation fails for n <= 0 is false. -/
theorem create_network_accepts_nonpositive :
    layerYsInt 0 = [] ∧ layerYsInt (-3) = [] ∧
    validatedLayerYs 0 = Except.error "InvalidLayoutError" := by
  refine ⟨rfl, rfl, rfl⟩

/-- Amended C7: the layout computation performs no validation: for every
integer size it returns max(size, 0) coordinates without any error, and in
particular an empty layer (not an InvalidLayoutError) for size <= 0. -/
theorem create_network_total (size : Int) :
    (layerYsInt size).length = size.toNat ∧ (size ≤ 0 → layerYsInt size = []) := by
  constructor
  · simp [layerYsInt]
  · intro h
    have ht : size.toNat = 0 := Int.toNat_of_nonpos h
    simp [layerYsInt, ht]

/-- Witness for the amended C7 at the concrete size -3. -/
theorem create_network_total_witness : layerYsInt (-3) = [] :=
  (create_network_total (-3)).2 (by norm_num)

/-- Claim C8: the layout is deterministic.  networkPositions is a pure
function of the size configuration (any two evaluations on the same sizes
coincide), and on the literal constants of the scene it equals one fixed,
explicit list of coordinates, so every position is fully determined at
creation time. -/
theorem network_layout_deterministic :
    (∀ sizes : List Nat, networkPositions sizes = networkPositions sizes) ∧
    networkPositions layer_sizes =
      [[(-15/4, 6/5), (-15/4, 2/5), (-15/4, -2/5), (-15/4, -6/5)],
       [(-5/4, 2), (-5/4, 6/5), (-5/4, 2/5), (-5/4, -2/5), (-5/4, -6/5), (-5/4, -2)],
       [(5/4, 2), (5/4, 6/5), (5/4, 2/5), (5/4, -2/5), (5/4, -6/5), (5/4, -2)],
       [(15/4, 4/5), (15/4, 0), (15/4, -4/5)]] := by
  refine ⟨fun _ => rfl, ?_⟩
  have he : ([4, 6, 6, 3] : List Nat).enum = [(0, 4), (1, 6), (2, 6), (3, 3)] := rfl
  have h3 : List.range 3 = [0, 1, 2] := rfl
  have h4 : List.range 4 = [0, 1, 2, 3] := rfl
  have h6 : List.range 6 = [0, 1, 2, 3, 4, 5] := rfl
  simp only [networkPositions, he, layerYs, yTop, xOffset, layer_sizes, layer_spacing,
    rowGap, h3, h4, h6, List.map_cons, List.map_nil, List.length_cons, List.length_nil,
    Function.comp_apply, List.map_map]
  norm_num

/-- Claim C9: get_layer_color is total over all layer indices: the clamped
index min(layer_idx, len(colors) - 1) is always in range, and every index
at least 3 yields the last color, orange. -/
theorem get_layer_color_clamped (layer_idx : Nat) :
    (layer_colors.get? (min layer_idx (layer_colors.length - 1))).isSome = true ∧
    (3 ≤ layer_idx → get_layer_color layer_idx = LayerColor.orange) := by
  have hl : layer_colors.length = 4 := rfl
  constructor
  · have hlt : min layer_idx (layer_colors.length - 1) < layer_colors.length := by
      have hm := Nat.min_le_right layer_idx (layer_colors.length - 1)
      omega
    rw [List.get?_eq_get hlt]
    rfl
  · intro h3
    have hm : min layer_idx (layer_colors.length - 1) = 3 := by
      rw [hl]
      exact Nat.min_eq_right (by omega)
    have key : ∀ (n : Nat) (hn : n < layer_colors.length), n = 3 →
        layer_colors.get ⟨n, hn⟩ = LayerColor.orange := by
      intro n hn he
      subst he
      rfl
    exact key _ _ hm

/-- Witness for C9 at the concrete out-of-table index 7. -/
theorem get_layer_color_clamped_witness :
    (layer_colors.get? (min 7 (layer_colors.length - 1))).isSome = true ∧
    get_layer_color 7 = LayerColor.orange :=
  ⟨(get_layer_color_clamped 7).1, (get_layer_color_clamped 7).2 (by norm_num)⟩

/-- Claim C10: the five arrows of the compound loop are exactly the pairs
i to (i + 1) mod 5, forming one closed cycle over the 5 nodes: 5 arrows,
every node with exactly one outgoing and one incoming arrow, and a
wrap-around arrow from node 4 back to node 0. -/
theorem loop_arrows_closed_cycle :
    loop_arrows = [(0, 1), (1, 2), (2, 3), (3, 4), (4, 0)] ∧
    loop_arrows.length = 5 ∧
    ((List.range 5).all fun j =>
      (loop_arrows.countP fun a => a.1 == j) == 1 &&
      (loop_arrows.countP fun a => a.2 == j) == 1) = true := by
  refine ⟨rfl, rfl, rfl⟩
